import Mathlib

/-!
# Verification of the segmented HTTP downloader core

Shallow embedding of the HTTP download path of azure-storage-azcopy:
the HTTP URL decomposer (`common/httpUrlParts.go`), the capability
prober / traverser (`cmd/zc_traverser_http.go`), and the HTTP
downloader (`ste` package: `httpDownloader.Prologue`,
`httpDownloader.detectCapabilities`, and the chunk task produced by
`httpDownloader.GenerateDownloadFunc`).

Go strings are modelled as Lean `String` / `List Char`; Go `int64` as
`Int` with explicit range checks where the source performs them; Go
functions that can fail return `Except`/`Option`.  HTTP I/O is made
explicit: a probe observes a `ProbeResponse` (status plus headers), and
the chunk retry loop consumes a sequence of `DoOutcome`s, one per
`httpClient.Do` call.
-/

namespace AzCopyHttp

/-! ## Go standard-library helpers used by the source -/

/-- Models Go `strconv.ParseInt(s, 10, 64)`: an optional leading sign
followed by one or more decimal digits, subject to the int64 range
check.  Returns `none` exactly when Go returns a non-nil error (syntax
error or out of range). -/
def goParseInt64 (s : String) : Option Int :=
  let (neg, digits) :=
    match s.data with
    | '-' :: rest => (true, rest)
    | '+' :: rest => (false, rest)
    | rest => (false, rest)
  if digits.isEmpty then none
  else if digits.all Char.isDigit then
    let n : Nat := digits.foldl (fun acc c => acc * 10 + (c.toNat - '0'.toNat)) 0
    if neg then
      if n ≤ 2 ^ 63 then some (-(n : Int)) else none
    else
      if n ≤ 2 ^ 63 - 1 then some (n : Int) else none
  else none

/-- Value of one character of the standard base64 alphabet. -/
def b64Val (c : Char) : Option Nat :=
  if 'A' ≤ c ∧ c ≤ 'Z' then some (c.toNat - 'A'.toNat)
  else if 'a' ≤ c ∧ c ≤ 'z' then some (c.toNat - 'a'.toNat + 26)
  else if '0' ≤ c ∧ c ≤ '9' then some (c.toNat - '0'.toNat + 52)
  else if c = '+' then some 62
  else if c = '/' then some 63
  else none

/-- Decodes base64 input in 4-character quanta with `=` padding allowed
only in the final quantum (the behaviour of Go's
`base64.StdEncoding`). -/
def b64DecodeGroups : List Char → Option (List Nat)
  | [] => some []
  | c1 :: c2 :: c3 :: c4 :: rest =>
    match b64Val c1, b64Val c2 with
    | some v1, some v2 =>
      if c3 = '=' then
        if c4 = '=' ∧ rest = [] then some [v1 * 4 + v2 / 16] else none
      else
        match b64Val c3 with
        | some v3 =>
          if c4 = '=' then
            if rest = [] then some [v1 * 4 + v2 / 16, v2 % 16 * 16 + v3 / 4] else none
          else
            match b64Val c4 with
            | some v4 =>
              match b64DecodeGroups rest with
              | some bs => some ([v1 * 4 + v2 / 16, v2 % 16 * 16 + v3 / 4, v3 % 4 * 64 + v4] ++ bs)
              | none => none
            | none => none
        | none => none
    | _, _ => none
  | _ => none

/-- Models Go `base64.StdEncoding.DecodeString`: newline characters are
ignored, anything else malformed yields `none`. -/
def goBase64Decode (s : String) : Option (List Nat) :=
  b64DecodeGroups (s.data.filter (fun c => c ≠ '\r' ∧ c ≠ '\n'))

/-! ## HTTP headers and probe responses -/

/-- An HTTP header set: an association list from canonical header names
to values (the Go `http.Header` as consumed by the source, which only
ever calls `Get`). -/
abbrev Headers := List (String × String)

/-- Models Go `http.Header.Get`: the first value for the key, or the
empty string when the header is absent. -/
def headerGet (hs : Headers) (key : String) : String :=
  match hs.find? (fun p => p.1 == key) with
  | some p => p.2
  | none => ""

/-- A probe (HEAD) response as observed by the source after a successful
`httpClient.Do`: the status code, the response headers, and Go's
transport-computed `resp.ContentLength` (`-1` when unknown). -/
structure ProbeResponse where
  status : Nat
  headers : Headers
  contentLength : Int
deriving DecidableEq, Repr

/-! ## Capability prober (traverser), `cmd/zc_traverser_http.go` -/

/-- The capability fields of `httpTraverser` filled in by
`detectCapabilities`.  `lastModifiedRaw` keeps the raw `Last-Modified`
header value: the source parses it as an HTTP date, which is not
modelled here (no claim concerns it). -/
structure TraverserCaps where
  supportsRange : Bool
  contentLength : Int
  contentMD5 : Option (List Nat)
  etag : String
  lastModifiedRaw : String
  contentType : String
deriving DecidableEq, Repr

/-- Embeds `httpTraverser.detectCapabilities` (traverser version): fails
on a non-200 status, otherwise extracts range support, content length
(via `strconv.ParseInt` on the `Content-Length` header, left at the Go
zero value 0 when the header is absent or unparsable), the base64
decoded `Content-MD5`, the `ETag`, `Last-Modified` and `Content-Type`
headers.  A transport error from `httpClient.Do` is modelled by the
caller passing no response at all. -/
def traverserDetectCapabilities (resp : ProbeResponse) : Except String TraverserCaps :=
  if resp.status ≠ 200 then
    .error ("HEAD request returned status " ++ toString resp.status)
  else
    let acceptRanges := headerGet resp.headers "Accept-Ranges"
    let contentLengthStr := headerGet resp.headers "Content-Length"
    let contentLength : Int :=
      if contentLengthStr ≠ "" then
        match goParseInt64 contentLengthStr with
        | some v => v
        | none => 0
      else 0
    let md5Str := headerGet resp.headers "Content-MD5"
    .ok { supportsRange := acceptRanges == "bytes"
          contentLength := contentLength
          contentMD5 := if md5Str ≠ "" then goBase64Decode md5Str else none
          etag := headerGet resp.headers "ETag"
          lastModifiedRaw := headerGet resp.headers "Last-Modified"
          contentType := headerGet resp.headers "Content-Type" }

/-! ## HTTP downloader probe, `ste` package -/

/-- The capability fields of `httpDownloader` filled in by its
`detectCapabilities`. -/
structure DownloaderCaps where
  supportsRange : Bool
  contentLength : Int
  expectedMD5 : Option (List Nat)
  etag : String
deriving DecidableEq, Repr

/-- Embeds `httpDownloader.detectCapabilities` (downloader version):
fails on a non-200 status, otherwise uses the transport-computed
`resp.ContentLength`, assigning it only when strictly positive (the
field keeps its Go zero value 0 otherwise). -/
def downloaderDetectCapabilities (resp : ProbeResponse) : Except String DownloaderCaps :=
  if resp.status ≠ 200 then
    .error ("HEAD request returned status " ++ toString resp.status)
  else
    let md5Str := headerGet resp.headers "Content-MD5"
    .ok { supportsRange := headerGet resp.headers "Accept-Ranges" == "bytes"
          contentLength := if 0 < resp.contentLength then resp.contentLength else 0
          expectedMD5 := if md5Str ≠ "" then goBase64Decode md5Str else none
          etag := headerGet resp.headers "ETag" }

/-! ## HTTP URL decomposer, `common/httpUrlParts.go`

`NewHTTPURLParts` delegates to Go's `net/url.Parse`; the relevant
behaviour of that parser (scheme extraction and lowercasing, fragment
and query splitting, authority/host/port parsing, percent-decoding of
path and fragment, and its error cases) is modelled below on
`List Char`. -/

/-- ASCII control byte (Go `stringContainsCTLByte`): below space, or DEL. -/
def isCtlByte (c : Char) : Bool := c.toNat < 0x20 ∨ c.toNat = 0x7f

/-- ASCII letter. -/
def isAlphaCh (c : Char) : Bool := ('a' ≤ c ∧ c ≤ 'z') ∨ ('A' ≤ c ∧ c ≤ 'Z')

/-- ASCII digit. -/
def isDigitCh (c : Char) : Bool := '0' ≤ c ∧ c ≤ '9'

/-- Hexadecimal digit value. -/
def hexVal (c : Char) : Option Nat :=
  if '0' ≤ c ∧ c ≤ '9' then some (c.toNat - '0'.toNat)
  else if 'a' ≤ c ∧ c ≤ 'f' then some (c.toNat - 'a'.toNat + 10)
  else if 'A' ≤ c ∧ c ≤ 'F' then some (c.toNat - 'A'.toNat + 10)
  else none

/-- Splits at the first occurrence of `sep` (excluded); `none` when
`sep` does not occur. -/
def splitFirst (sep : Char) : List Char → Option (List Char × List Char)
  | [] => none
  | c :: cs =>
    if c = sep then some ([], cs)
    else (splitFirst sep cs).map (fun p => (c :: p.1, p.2))

/-- Splits at the last occurrence of `sep` (excluded); `none` when
`sep` does not occur. -/
def splitLast (sep : Char) (s : List Char) : Option (List Char × List Char) :=
  (splitFirst sep s.reverse).map (fun p => (p.2.reverse, p.1.reverse))

/-- Models `net/url`'s `getScheme`: scans for a `scheme:` prefix made of
a letter followed by letters, digits, `+`, `-`, `.`.  A leading colon is
an error; any other shape means the URL has no scheme. -/
def getSchemeAux (orig : List Char) (acc : List Char) :
    List Char → Except String (List Char × List Char)
  | [] => .ok ([], orig)
  | c :: cs =>
    if isAlphaCh c then getSchemeAux orig (acc ++ [c]) cs
    else if isDigitCh c ∨ c = '+' ∨ c = '-' ∨ c = '.' then
      if acc.isEmpty then .ok ([], orig) else getSchemeAux orig (acc ++ [c]) cs
    else if c = ':' then
      if acc.isEmpty then .error "missing protocol scheme" else .ok (acc, cs)
    else .ok ([], orig)

/-- See `getSchemeAux`. -/
def getScheme (s : List Char) : Except String (List Char × List Char) :=
  getSchemeAux s [] s

/-- Models `net/url`'s `unescape`: decodes `%xx` escapes, failing on a
`%` not followed by two hex digits. -/
def percentDecode : List Char → Except String (List Char)
  | '%' :: c1 :: c2 :: cs =>
    match hexVal c1, hexVal c2 with
    | some h1, some h2 => (percentDecode cs).map (Char.ofNat (h1 * 16 + h2) :: ·)
    | _, _ => .error "invalid URL escape"
  | '%' :: _ => .error "invalid URL escape"
  | [] => .ok []
  | c :: cs => (percentDecode cs).map (c :: ·)

/-- Models `net/url`'s `validOptionalPort`: empty, or `:` followed by
digits only. -/
def validOptionalPort : List Char → Bool
  | [] => true
  | ':' :: rest => rest.all isDigitCh
  | _ => false

/-- Models `net/url`'s `parseHost` combined with `Hostname()`/`Port()`:
returns the host without brackets and the port (empty when absent).
Bracketed IPv6 hosts need a closing `]`; the port, when present, must
be all digits; percent-escapes in the host must be valid. -/
def parseHost (host : List Char) : Except String (List Char × List Char) :=
  match host with
  | '[' :: _ =>
    match splitLast ']' host with
    | none => .error "missing ']' in host"
    | some (before, colonPort) =>
      if validOptionalPort colonPort then
        (percentDecode (before.drop 1)).map (fun inner => (inner, colonPort.drop 1))
      else .error "invalid port after host"
  | _ =>
    match splitLast ':' host with
    | some (h, p) =>
      if validOptionalPort (':' :: p) then (percentDecode h).map (fun hd => (hd, p))
      else .error "invalid port after host"
    | none => (percentDecode host).map (fun hd => (hd, []))

/-- The decomposition `net/url.Parse` produces, restricted to the fields
`NewHTTPURLParts` reads (`Scheme`, `Hostname()`, `Port()`, `Path`,
`RawQuery`, `Fragment`). -/
structure GoURL where
  scheme : String
  host : String
  port : String
  path : String
  rawQuery : String
  fragment : String
deriving DecidableEq, Repr

/-- Models `net/url.Parse` for absolute and relative URLs: splits the
fragment, rejects control characters, extracts and lowercases the
scheme, splits the query at the first `?`, then parses either an opaque
remainder, a rootless path, or an authority followed by a path.  Path
and fragment are percent-decoded; the query is kept raw. -/
def urlParse (rawURL : String) : Except String GoURL := do
  let cs := rawURL.data
  let (beforeFrag, fragRaw) :=
    match splitFirst '#' cs with
    | some (b, f) => (b, some f)
    | none => (cs, none)
  if beforeFrag.any isCtlByte then
    throw "invalid control character in URL"
  let (schemeRaw, rest0) ← getScheme beforeFrag
  let scheme := (schemeRaw.map Char.toLower).asString
  let (rest1, rawQuery) :=
    match splitFirst '?' rest0 with
    | some (b, q) => (b, q)
    | none => (rest0, [])
  let (hostname, port, path) ←
    (if rest1.take 1 ≠ ['/'] then
      if scheme ≠ "" then
        -- opaque URL such as `mailto:user@host`: Path stays empty
        pure (([] : List Char), ([] : List Char), ([] : List Char))
      else if (((splitFirst '/' rest1).map Prod.fst).getD rest1).any (· = ':') then
        throw "first path segment in URL cannot contain colon"
      else do
        let p ← percentDecode rest1
        pure ([], [], p)
    else if rest1.take 2 = ['/', '/'] ∧ (scheme ≠ "" ∨ rest1.take 3 ≠ ['/', '/', '/']) then do
      let afterSlashes := rest1.drop 2
      let (authority, restPath) :=
        match splitFirst '/' afterSlashes with
        | some (a, r) => (a, '/' :: r)
        | none => (afterSlashes, [])
      let hostRaw ←
        match splitLast '@' authority with
        | some (userinfo, h) => do
            -- userinfo is dropped by the decomposer but its escapes are validated
            let _ ← percentDecode userinfo
            pure h
        | none => pure authority
      let (hostname, port) ← parseHost hostRaw
      let p ← percentDecode restPath
      pure (hostname, port, p)
    else do
      let p ← percentDecode rest1
      pure ([], [], p) : Except String (List Char × List Char × List Char))
  let fragment ←
    match fragRaw with
    | some f => percentDecode f
    | none => pure []
  pure { scheme := scheme, host := hostname.asString, port := port.asString,
         path := path.asString, rawQuery := rawQuery.asString,
         fragment := fragment.asString }

/-- `HTTPURLParts` from `common/httpUrlParts.go`: the immutable
decomposition of an HTTP URL, with the exact input kept in `URL`. -/
structure HTTPURLParts where
  Scheme : String
  Host : String
  Port : String
  Path : String
  Query : String
  Fragment : String
  URL : String
deriving DecidableEq, Repr

/-- Embeds `NewHTTPURLParts`: the empty string fails, an unparsable URL
fails, a scheme other than `http`/`https` fails; otherwise the parts
are filled from the parsed URL and `URL` keeps the raw input. -/
def NewHTTPURLParts (rawURL : String) : Except String HTTPURLParts :=
  if rawURL = "" then .error "URL cannot be empty"
  else
    match urlParse rawURL with
    | .error e => .error ("invalid HTTP URL: " ++ e)
    | .ok parsed =>
      if parsed.scheme ≠ "http" ∧ parsed.scheme ≠ "https" then
        .error ("expected http or https, got: " ++ parsed.scheme)
      else
        .ok { Scheme := parsed.scheme, Host := parsed.host, Port := parsed.port,
              Path := parsed.path, Query := parsed.rawQuery,
              Fragment := parsed.fragment, URL := rawURL }

/-- Embeds `HTTPURLParts.String`: reconstruction returns the stored
original URL. -/
def HTTPURLParts.String (h : HTTPURLParts) : String := h.URL

/-- Embeds `HTTPURLParts.IsSecure`. -/
def HTTPURLParts.IsSecure (h : HTTPURLParts) : Bool := h.Scheme == "https"

/-! ## Traverser file-name derivation, `cmd/zc_traverser_http.go` -/

/-- Go `strings.Split` with a single-character separator (the empty
string splits to `[""]`, like in Go). -/
def goSplitChar (sep : Char) : List Char → List (List Char)
  | [] => [[]]
  | c :: cs =>
    let r := goSplitChar sep cs
    if c = sep then [] :: r
    else
      match r with
      | h :: t => (c :: h) :: t
      | [] => [[c]]

/-- Go `strings.TrimSuffix(s, "/")`: drops one trailing slash. -/
def goTrimSuffixSlash (s : List Char) : List Char :=
  if s.getLast? = some '/' then s.dropLast else s

/-- The backwards scan in `getFileName`: the last component that is not
the empty string. -/
def lastNonEmpty (l : List (List Char)) : Option (List Char) :=
  l.reverse.find? (fun seg => !seg.isEmpty)

/-- Embeds `httpTraverser.getFileName` (which reads only the
traverser's `rawURL`): re-parses the URL (any parse failure yields the
fixed literal), trims one trailing slash from the decomposed path,
splits on `/`, and returns the last non-empty component, defaulting to
`"downloaded_file"`. -/
def getFileName (rawURL : String) : String :=
  match NewHTTPURLParts rawURL with
  | .error _ => "downloaded_file"
  | .ok urlParts =>
    match lastNonEmpty (goSplitChar '/' (goTrimSuffixSlash urlParts.Path.data)) with
    | some seg => seg.asString
    | none => "downloaded_file"

/-- Spec-side reading of the claim: the last non-empty `/`-separated
segment of a path, untouched by any trimming. -/
def specLastSegment (path : String) : Option String :=
  (lastNonEmpty (goSplitChar '/' path.data)).map List.asString

/-- `httpTraverser` state relevant to the embedded methods (the
context, HTTP client and counters live in the runtime and are not
modelled). -/
structure HttpTraverser where
  rawURL : String
  bearerToken : String
  supportsRange : Bool
  contentLength : Int
  contentMD5 : Option (List Nat)
  etag : String
  contentType : String
deriving DecidableEq, Repr

/-- Embeds `httpTraverser.IsDirectory`: always `(false, nil)`. -/
def HttpTraverser.IsDirectory (_t : HttpTraverser) (_isSource : Bool) :
    Bool × Option String :=
  (false, none)

/-! ## Claims C4 and C5: probe header extraction -/

/-- Claim C4 counterexample: the claim "the resulting size is never
negative" fails on the traverser.  A probe response whose
`Content-Length` header is `"-5"` parses successfully under
`strconv.ParseInt` (which accepts a leading sign), so the traverser
stores the negative size `-5`. -/
theorem negative_content_length_counterexample :
    (traverserDetectCapabilities ⟨200, [("Content-Length", "-5")], -1⟩).map
        TraverserCaps.contentLength = .ok (-5) ∧ (-5 : Int) < 0 :=
  ⟨rfl, by norm_num⟩

/-- Claim C4 (amended): the traverser's extracted size is the signed
64-bit parse of the `content-length` header (so a negative header value
yields a negative size), defaulting to 0 on parse failure or absence;
the downloader's probe stores the transport-reported length only when
positive, so its size is never negative. -/
theorem probe_size_extraction (resp : ProbeResponse) (caps : TraverserCaps)
    (dcaps : DownloaderCaps)
    (ht : traverserDetectCapabilities resp = .ok caps)
    (hd : downloaderDetectCapabilities resp = .ok dcaps) :
    caps.contentLength =
      (match goParseInt64 (headerGet resp.headers "Content-Length") with
       | some v => v
       | none => 0) ∧
    0 ≤ dcaps.contentLength := by
  unfold traverserDetectCapabilities at ht
  unfold downloaderDetectCapabilities at hd
  split at ht
  · exact absurd ht (by simp)
  · split at hd
    · exact absurd hd (by simp)
    · simp only [Except.ok.injEq] at ht hd
      subst ht
      subst hd
      constructor
      · by_cases h : headerGet resp.headers "Content-Length" = ""
        · simp [h, goParseInt64]
        · simp [h]
      · dsimp only
        split
        · omega
        · exact le_refl 0

/-- Claim C4 witness: a probe response carrying `Content-Length: 18`
yields extracted size 18 in the traverser and a non-negative size in
the downloader. -/
theorem probe_size_extraction_witness :
    (⟨false, 18, none, "", "", ""⟩ : TraverserCaps).contentLength =
      (match goParseInt64 (headerGet ([("Content-Length", "18")] : Headers)
          "Content-Length") with
       | some v => v
       | none => 0) ∧
    (0 : Int) ≤ (⟨false, 18, none, ""⟩ : DownloaderCaps).contentLength :=
  probe_size_extraction ⟨200, [("Content-Length", "18")], 18⟩ _ _ rfl rfl

/-- Claim C5: for every probe response accepted by either probe,
`supportsRange` holds iff the `Accept-Ranges` header value is exactly
`"bytes"`; any other value, including `"none"` or an absent header
(which `Get` reports as the empty string), yields `false`. -/
theorem supports_range_iff_bytes (resp : ProbeResponse) (caps : TraverserCaps)
    (dcaps : DownloaderCaps)
    (ht : traverserDetectCapabilities resp = .ok caps)
    (hd : downloaderDetectCapabilities resp = .ok dcaps) :
    (caps.supportsRange = true ↔ headerGet resp.headers "Accept-Ranges" = "bytes") ∧
    (dcaps.supportsRange = true ↔ headerGet resp.headers "Accept-Ranges" = "bytes") := by
  unfold traverserDetectCapabilities at ht
  unfold downloaderDetectCapabilities at hd
  split at ht
  · exact absurd ht (by simp)
  · split at hd
    · exact absurd hd (by simp)
    · simp only [Except.ok.injEq] at ht hd
      subst ht
      subst hd
      constructor <;> simp [beq_iff_eq]

/-- Claim C5 witness: `Accept-Ranges: none` yields `supportsRange = false`
in both probes. -/
theorem supports_range_iff_bytes_witness :
    ((⟨false, 0, none, "", "", ""⟩ : TraverserCaps).supportsRange = true ↔
      headerGet ([("Accept-Ranges", "none")] : Headers) "Accept-Ranges" = "bytes") ∧
    ((⟨false, 0, none, ""⟩ : DownloaderCaps).supportsRange = true ↔
      headerGet ([("Accept-Ranges", "none")] : Headers) "Accept-Ranges" = "bytes") :=
  supports_range_iff_bytes ⟨200, [("Accept-Ranges", "none")], -1⟩ _ _ (by rfl) (by rfl)

/-! ## Claims C6, C7, C8, C10: decomposer and traverser surface -/

/-- Whether an `Except` carries a success value. -/
def exceptIsOk {ε α : Type} : Except ε α → Bool
  | .ok _ => true
  | .error _ => false

/-- Claim C6: whenever the decomposer succeeds, `String()` on the parts
returns exactly the original input. -/
theorem decompose_string_roundtrip (u : String) (parts : HTTPURLParts)
    (h : NewHTTPURLParts u = .ok parts) : parts.String = u := by
  unfold NewHTTPURLParts at h
  split at h
  · exact absurd h (by simp)
  · split at h
    · exact absurd h (by simp)
    · split at h
      · exact absurd h (by simp)
      · simp only [Except.ok.injEq] at h
        subst h
        rfl

/-- Claim C6 witness: round trip at a concrete URL. -/
theorem decompose_string_roundtrip_witness :
    HTTPURLParts.String ⟨"https", "example.com", "", "/file", "", "",
      "https://example.com/file"⟩ = "https://example.com/file" :=
  decompose_string_roundtrip "https://example.com/file" _ (by rfl)

/-- Claim C8: the decomposer rejects the empty string and every input
whose parsed scheme is neither `http` nor `https`, and accepts every
non-empty input that parses with scheme `http` or `https`. -/
theorem decompose_error_conditions (u : String) :
    (u = "" → exceptIsOk (NewHTTPURLParts u) = false) ∧
    (∀ parsed : GoURL, urlParse u = .ok parsed → parsed.scheme ≠ "http" →
      parsed.scheme ≠ "https" → exceptIsOk (NewHTTPURLParts u) = false) ∧
    (∀ parsed : GoURL, u ≠ "" → urlParse u = .ok parsed →
      (parsed.scheme = "http" ∨ parsed.scheme = "https") →
      exceptIsOk (NewHTTPURLParts u) = true) := by
  refine ⟨fun h => ?_, fun parsed hp h1 h2 => ?_, fun parsed hu hp hs => ?_⟩
  · simp [NewHTTPURLParts, h, exceptIsOk]
  · by_cases hu : u = ""
    · simp [NewHTTPURLParts, hu, exceptIsOk]
    · simp [NewHTTPURLParts, hu, hp, h1, h2, exceptIsOk]
  · rcases hs with hs | hs <;>
      simp [NewHTTPURLParts, hu, hp, hs, exceptIsOk]

/-- Claim C8 witness: the empty string and an `ftp` URL are rejected, a
plain `https` URL is accepted. -/
theorem decompose_error_conditions_witness :
    exceptIsOk (NewHTTPURLParts "") = false ∧
    exceptIsOk (NewHTTPURLParts "ftp://example.com/file") = false ∧
    exceptIsOk (NewHTTPURLParts "https://example.com") = true :=
  ⟨(decompose_error_conditions "").1 rfl,
   (decompose_error_conditions "ftp://example.com/file").2.1
     ⟨"ftp", "example.com", "", "/file", "", ""⟩ (by rfl) (by decide) (by decide),
   (decompose_error_conditions "https://example.com").2.2
     ⟨"https", "example.com", "", "", "", ""⟩ (by decide) (by rfl) (Or.inr rfl)⟩

/-- Splitting never yields the empty list of components. -/
theorem goSplitChar_ne_nil (sep : Char) (l : List Char) : goSplitChar sep l ≠ [] := by
  cases l with
  | nil => simp [goSplitChar]
  | cons c cs =>
    unfold goSplitChar
    dsimp only
    split
    · simp
    · split <;> simp

/-- Appending the separator appends one empty component. -/
theorem goSplitChar_append_sep (sep : Char) (t : List Char) :
    goSplitChar sep (t ++ [sep]) = goSplitChar sep t ++ [[]] := by
  induction t with
  | nil => simp [goSplitChar]
  | cons c cs ih =>
    by_cases hc : c = sep
    · subst hc
      simp [goSplitChar, ih]
    · rcases hsplit : goSplitChar sep cs with _ | ⟨h, t'⟩
      · exact absurd hsplit (goSplitChar_ne_nil sep cs)
      · simp [goSplitChar, hc, ih, hsplit]

/-- Trimming one trailing slash does not change the last non-empty
component of the split. -/
theorem lastNonEmpty_trim (s : List Char) :
    lastNonEmpty (goSplitChar '/' (goTrimSuffixSlash s)) =
      lastNonEmpty (goSplitChar '/' s) := by
  rcases List.eq_nil_or_concat s with rfl | ⟨t, a, rfl⟩
  · rfl
  · simp only [List.concat_eq_append]
    by_cases ha : a = '/'
    · subst ha
      have h1 : goTrimSuffixSlash (t ++ ['/']) = t := by
        simp [goTrimSuffixSlash, List.getLast?_concat, List.dropLast_concat]
      rw [h1, goSplitChar_append_sep]
      unfold lastNonEmpty
      rw [List.reverse_append]
      simp
    · have h1 : goTrimSuffixSlash (t ++ [a]) = t ++ [a] := by
        simp [goTrimSuffixSlash, List.getLast?_concat, ha]
      rw [h1]

/-- Claim C7: for every URL accepted by the decomposer, the file name the
traverser derives is the last non-empty `/`-separated segment of the
decomposed path, or the literal `"downloaded_file"` when the path has
no non-empty segment. -/
theorem filename_last_nonempty_segment (u : String) (parts : HTTPURLParts)
    (h : NewHTTPURLParts u = .ok parts) :
    getFileName u = (specLastSegment parts.Path).getD "downloaded_file" := by
  have hred : getFileName u =
      match lastNonEmpty (goSplitChar '/' (goTrimSuffixSlash parts.Path.data)) with
      | some seg => seg.asString
      | none => "downloaded_file" := by
    unfold getFileName
    rw [h]
  rw [hred, lastNonEmpty_trim]
  unfold specLastSegment
  cases lastNonEmpty (goSplitChar '/' parts.Path.data) <;> simp

/-- Claim C7 witness: concrete names, including the all-slashes path that
falls back to the fixed literal. -/
theorem filename_last_nonempty_segment_witness :
    getFileName "https://example.com/files/data.bin" = "data.bin" ∧
    getFileName "https://example.com/" = "downloaded_file" := by
  constructor
  · have h := filename_last_nonempty_segment "https://example.com/files/data.bin"
      ⟨"https", "example.com", "", "/files/data.bin", "", "",
        "https://example.com/files/data.bin"⟩ (by rfl)
    rw [h]
    rfl
  · have h := filename_last_nonempty_segment "https://example.com/"
      ⟨"https", "example.com", "", "/", "", "", "https://example.com/"⟩ (by rfl)
    rw [h]
    rfl

/-- Claim C10: `IsDirectory` on the HTTP traverser returns `false` with a
nil error for both values of `isSource`: an HTTP endpoint is always a
single file and the call cannot fail. -/
theorem isDirectory_always_false_nil (t : HttpTraverser) (isSource : Bool) :
    t.IsDirectory isSource = (false, none) := rfl

/-! ## Downloader prologue and chunk task, `ste` package -/

/-- The transfer-level effects of `Prologue`: whether
`SetStatus(Failed)` and `ReportTransferDone` were invoked, and the
capability state left on the downloader. -/
structure PrologueResult where
  failed : Bool
  reportedDone : Bool
  caps : Option DownloaderCaps
deriving DecidableEq, Repr

/-- Embeds `httpDownloader.Prologue`: probes again via
`detectCapabilities` (`none` models a transport error from
`httpClient.Do`), failing the transfer on probe failure; then validates
the enumerated `info.SourceSize` against the probed length — but only
when the probed length is strictly positive. -/
def Prologue (probeDo : Option ProbeResponse) (sourceSize : Int) : PrologueResult :=
  match probeDo with
  | none => { failed := true, reportedDone := true, caps := none }
  | some resp =>
    match downloaderDetectCapabilities resp with
    | .error _ => { failed := true, reportedDone := true, caps := none }
    | .ok caps =>
      if 0 < caps.contentLength ∧ sourceSize ≠ caps.contentLength then
        { failed := true, reportedDone := true, caps := some caps }
      else
        { failed := false, reportedDone := false, caps := some caps }

/-- Outcome of one `httpClient.Do` call in the chunk retry loop: a
transport error (`resp == nil`) or a response with the given status
code. -/
inductive DoOutcome where
  | transportError
  | status (code : Nat)
deriving DecidableEq, Repr

/-- Result of the chunk retry loop: success with the final status and
the total number of `Do` calls performed, or failure (transport-level
or bad final status) after the given number of calls. -/
inductive RetryResult where
  | success (code : Nat) (attempts : Nat)
  | failedTransport (attempts : Nat)
  | failedStatus (code : Nat) (attempts : Nat)
deriving DecidableEq, Repr

/-- Total number of `Do` calls recorded in a `RetryResult`. -/
def RetryResult.attempts : RetryResult → Nat
  | .success _ k => k
  | .failedTransport k => k
  | .failedStatus _ k => k

/-- Whether the loop broke out on a 200/206 response. -/
def RetryResult.isSuccess : RetryResult → Bool
  | .success _ _ => true
  | _ => false

/-- `true` unless the result is a success carrying a status other than
200 or 206 (the loop can only break successfully on those). -/
def RetryResult.successStatusOk : RetryResult → Bool
  | .success code _ => code == 200 || code == 206
  | _ => true

/-- Embeds the request/retry loop of the chunk task generated by
`httpDownloader.GenerateDownloadFunc`: `outcomes k` is the result of
the `k`-th `httpClient.Do` call (exactly one per loop iteration),
`maxRetries` is `destWriter.MaxRetryPerDownloadBody()`, and `retries`
is the Go loop counter, 0 on entry.  The loop breaks on a 200/206
response; any other outcome increments the counter, and the loop sleeps
with capped linear backoff, rebuilds the request and continues while
`retries ≤ maxRetries`, otherwise it exits with the last outcome. -/
def retryLoop (outcomes : Nat → DoOutcome) (maxRetries : Nat) (retries : Nat) :
    RetryResult :=
  match outcomes retries with
  | .status code =>
    if code = 200 ∨ code = 206 then .success code (retries + 1)
    else if retries + 1 ≤ maxRetries then retryLoop outcomes maxRetries (retries + 1)
    else .failedStatus code (retries + 1)
  | .transportError =>
    if retries + 1 ≤ maxRetries then retryLoop outcomes maxRetries (retries + 1)
    else .failedTransport (retries + 1)
termination_by maxRetries + 1 - retries
decreasing_by all_goals omega

/-- Result of executing one chunk task: the number of HTTP attempts
performed, whether the body was handed to `destWriter.EnqueueChunk`,
and on failure the operation name and (when the source builds one) the
error message passed to `FailActiveDownload`. -/
structure ChunkResult where
  httpAttempts : Nat
  enqueueCalled : Bool
  failOp : Option String
  failMsg : Option String
deriving DecidableEq, Repr

/-- Embeds the body of the chunk function generated by
`httpDownloader.GenerateDownloadFunc`: the precondition check on range
support for a positive offset, the retry loop, the error reporting
after the loop, and the hand-off to `EnqueueChunk` (whose success is
`enqueueOk`).  Request construction is deterministic for a fixed source
URL and context and is not a failure point; a transport-level error
message is opaque and recorded as `none`. -/
def chunkTask (supportsRange : Bool) (offsetInFile : Int)
    (outcomes : Nat → DoOutcome) (maxRetries : Nat) (enqueueOk : Bool) :
    ChunkResult :=
  if supportsRange = false ∧ 0 < offsetInFile then
    { httpAttempts := 0, enqueueCalled := false,
      failOp := some "Range request validation",
      failMsg := some ("server does not support range requests, cannot download chunk at offset "
        ++ toString offsetInFile) }
  else
    match retryLoop outcomes maxRetries 0 with
    | .success _ k =>
      { httpAttempts := k, enqueueCalled := true,
        failOp := if enqueueOk then none else some "Enqueuing chunk",
        failMsg := none }
    | .failedTransport k =>
      { httpAttempts := k, enqueueCalled := false,
        failOp := some "Downloading response body", failMsg := none }
    | .failedStatus code k =>
      { httpAttempts := k, enqueueCalled := false,
        failOp := some "Downloading response body",
        failMsg := some ("unexpected status code: " ++ toString code) }

/-! ## Claim C2: prologue size validation -/

/-- Claim C2 counterexample: a probe response with no content length
(transport reports `-1`, the downloader records 0) and an enumerated
size of 5: the probed and expected sizes differ, yet the transfer is
not marked Failed. -/
theorem prologue_zero_size_mismatch_counterexample :
    (Prologue (some ⟨200, [], -1⟩) 5).failed = false ∧
    (downloaderDetectCapabilities ⟨200, [], -1⟩).map DownloaderCaps.contentLength =
      .ok 0 ∧
    (0 : Int) ≠ 5 :=
  ⟨by rfl, by rfl, by norm_num⟩

/-- Claim C2 (amended): the prologue probes again and marks the transfer
Failed and reported done on probe failure, or when the probed size is
positive and differs from the enumerated size; a non-positive
(unknown) probed size is not validated and the transfer proceeds. -/
theorem prologue_validation (probeDo : Option ProbeResponse) (sourceSize : Int) :
    (probeDo = none → Prologue probeDo sourceSize = ⟨true, true, none⟩) ∧
    (∀ resp e, probeDo = some resp → downloaderDetectCapabilities resp = .error e →
      Prologue probeDo sourceSize = ⟨true, true, none⟩) ∧
    (∀ resp caps, probeDo = some resp → downloaderDetectCapabilities resp = .ok caps →
      0 < caps.contentLength → sourceSize ≠ caps.contentLength →
      Prologue probeDo sourceSize = ⟨true, true, some caps⟩) ∧
    (∀ resp caps, probeDo = some resp → downloaderDetectCapabilities resp = .ok caps →
      (caps.contentLength ≤ 0 ∨ sourceSize = caps.contentLength) →
      Prologue probeDo sourceSize = ⟨false, false, some caps⟩) := by
  refine ⟨fun h => ?_, fun resp e hp hd => ?_, fun resp caps hp hd hpos hne => ?_,
    fun resp caps hp hd hok => ?_⟩
  · subst h; rfl
  · subst hp
    unfold Prologue
    dsimp only
    rw [hd]
  · subst hp
    unfold Prologue
    dsimp only
    rw [hd]
    dsimp only
    rw [if_pos ⟨hpos, hne⟩]
  · subst hp
    unfold Prologue
    dsimp only
    rw [hd]
    dsimp only
    rw [if_neg]
    rintro ⟨hcl, hss⟩
    rcases hok with h | h
    · omega
    · exact hss h

/-- Claim C2 witness: a positive probed size of 100 against an expected
size of 5 fails the transfer; a matching size of 100 lets it proceed. -/
theorem prologue_validation_witness :
    Prologue (some ⟨200, [], 100⟩) 5 = ⟨true, true, some ⟨false, 100, none, ""⟩⟩ ∧
    Prologue (some ⟨200, [], 100⟩) 100 = ⟨false, false, some ⟨false, 100, none, ""⟩⟩ :=
  ⟨(prologue_validation (some ⟨200, [], 100⟩) 5).2.2.1 _ ⟨false, 100, none, ""⟩
      rfl (by rfl) (by norm_num) (by norm_num),
   (prologue_validation (some ⟨200, [], 100⟩) 100).2.2.2 _ ⟨false, 100, none, ""⟩
      rfl (by rfl) (Or.inr rfl)⟩

/-! ## Claims C1, C3, C9: the chunk task and its retry loop -/

/-- When every attempt yields the same non-200/206 status, the loop
runs the counter up to the budget and exits with that status. -/
theorem retryLoop_all_bad (code : Nat) (h200 : code ≠ 200) (h206 : code ≠ 206)
    (outcomes : Nat → DoOutcome) (hall : ∀ i, outcomes i = .status code)
    (maxRetries : Nat) :
    ∀ fuel retries, maxRetries - retries ≤ fuel → retries ≤ maxRetries →
      retryLoop outcomes maxRetries retries = .failedStatus code (maxRetries + 1) := by
  intro fuel
  induction fuel with
  | zero =>
    intro retries h0 hle
    have hr : retries = maxRetries := by omega
    rw [retryLoop, hall retries]
    dsimp only
    rw [if_neg (by rintro (h | h) <;> [exact h200 h; exact h206 h]),
      if_neg (by omega), hr]
  | succ n ih =>
    intro retries h0 hle
    rw [retryLoop, hall retries]
    dsimp only
    rw [if_neg (by rintro (h | h) <;> [exact h200 h; exact h206 h])]
    by_cases hnext : retries + 1 ≤ maxRetries
    · rw [if_pos hnext]
      exact ih (retries + 1) (by omega) hnext
    · rw [if_neg hnext]
      have hr : retries = maxRetries := by omega
      rw [hr]

/-- Claim C1 counterexample: with retry budget 1, a first attempt
answered with 404 — a 4xx status that is not 429 — is followed by a
second HTTP attempt: the downloader retries such statuses rather than
stopping. -/
theorem notRetried_4xx_counterexample :
    (chunkTask true 0 (fun _ => .status 404) 1 true).httpAttempts = 2 ∧
    400 ≤ 404 ∧ 404 < 500 ∧ (404 : Nat) ≠ 429 := by
  refine ⟨?_, by norm_num, by norm_num, by norm_num⟩
  unfold chunkTask
  rw [if_neg (by simp),
    retryLoop_all_bad 404 (by norm_num) (by norm_num) _ (fun i => rfl) 1 1 0
      (by omega) (by omega)]

/-- Claim C1 (amended): a response status outside {200, 206} — in
particular any 4xx other than 429 — is retried like every other
failure: when every attempt returns such a status the chunk task
performs `maxRetries + 1` HTTP attempts and only then fails the active
download (operation "Downloading response body"). -/
theorem bad_status_retried_until_budget (code : Nat) (maxRetries : Nat)
    (outcomes : Nat → DoOutcome) (enqueueOk : Bool)
    (h200 : code ≠ 200) (h206 : code ≠ 206)
    (hall : ∀ i, outcomes i = .status code) :
    chunkTask true 0 outcomes maxRetries enqueueOk =
      { httpAttempts := maxRetries + 1, enqueueCalled := false,
        failOp := some "Downloading response body",
        failMsg := some ("unexpected status code: " ++ toString code) } := by
  unfold chunkTask
  rw [if_neg (by simp),
    retryLoop_all_bad code h200 h206 outcomes hall maxRetries maxRetries 0
      (by omega) (by omega)]

/-- Claim C1 witness: three attempts for budget 2 under constant 404,
then failure. -/
theorem bad_status_retried_until_budget_witness :
    chunkTask true 0 (fun _ => .status 404) 2 true =
      { httpAttempts := 3, enqueueCalled := false,
        failOp := some "Downloading response body",
        failMsg := some "unexpected status code: 404" } := by
  have h := bad_status_retried_until_budget 404 2 (fun _ => .status 404) true
    (by norm_num) (by norm_num) (fun i => rfl)
  rw [h]
  rfl

/-- Claim C3: when the server does not support ranges and the chunk's
offset is positive, the task fails the active download in "Range
request validation" with an error naming the missing range support,
performs no HTTP attempt, and never calls `EnqueueChunk`. -/
theorem no_range_support_nonzero_offset_fails_fast (offsetInFile : Int)
    (outcomes : Nat → DoOutcome) (maxRetries : Nat) (enqueueOk : Bool)
    (hoff : 0 < offsetInFile) :
    chunkTask false offsetInFile outcomes maxRetries enqueueOk =
      { httpAttempts := 0, enqueueCalled := false,
        failOp := some "Range request validation",
        failMsg := some ("server does not support range requests, cannot download chunk at offset "
          ++ toString offsetInFile) } := by
  unfold chunkTask
  rw [if_pos ⟨rfl, hoff⟩]

/-- Claim C3 witness: offset 4 without range support fails fast. -/
theorem no_range_support_nonzero_offset_fails_fast_witness :
    chunkTask false 4 (fun _ => .status 200) 5 true =
      { httpAttempts := 0, enqueueCalled := false,
        failOp := some "Range request validation",
        failMsg := some "server does not support range requests, cannot download chunk at offset 4" } := by
  rw [no_range_support_nonzero_offset_fails_fast 4 (fun _ => .status 200) 5 true
    (by norm_num)]
  rfl

/-- Attempt bound, exit conditions and terminal characterization of the
retry loop, for any entry point `retries ≤ maxRetries`. -/
theorem retryLoop_props (outcomes : Nat → DoOutcome) (maxRetries : Nat) :
    ∀ fuel retries, maxRetries - retries ≤ fuel → retries ≤ maxRetries →
      retries + 1 ≤ (retryLoop outcomes maxRetries retries).attempts ∧
      (retryLoop outcomes maxRetries retries).attempts ≤ maxRetries + 1 ∧
      ((retryLoop outcomes maxRetries retries).isSuccess = true ∨
        (retryLoop outcomes maxRetries retries).attempts = maxRetries + 1) ∧
      (retryLoop outcomes maxRetries retries).successStatusOk = true := by
  intro fuel
  induction fuel with
  | zero =>
    intro retries h0 hle
    have hr : retries = maxRetries := by omega
    rw [retryLoop]
    rcases outcomes retries with _ | code
    · dsimp only
      rw [if_neg (by omega)]
      refine ⟨by simp [RetryResult.attempts], by simp [RetryResult.attempts]; omega,
        Or.inr (by simp [RetryResult.attempts]; omega), by simp [RetryResult.successStatusOk]⟩
    · dsimp only
      by_cases hcode : code = 200 ∨ code = 206
      · rw [if_pos hcode]
        refine ⟨by simp [RetryResult.attempts], by simp [RetryResult.attempts]; omega,
          Or.inl (by simp [RetryResult.isSuccess]), ?_⟩
        simp only [RetryResult.successStatusOk]
        rcases hcode with h | h <;> simp [h]
      · rw [if_neg hcode, if_neg (by omega)]
        refine ⟨by simp [RetryResult.attempts], by simp [RetryResult.attempts]; omega,
          Or.inr (by simp [RetryResult.attempts]; omega), by simp [RetryResult.successStatusOk]⟩
  | succ n ih =>
    intro retries h0 hle
    rw [retryLoop]
    rcases outcomes retries with _ | code
    · dsimp only
      by_cases hnext : retries + 1 ≤ maxRetries
      · rw [if_pos hnext]
        have h := ih (retries + 1) (by omega) hnext
        exact ⟨by omega, h.2.1, h.2.2.1, h.2.2.2⟩
      · rw [if_neg hnext]
        refine ⟨by simp [RetryResult.attempts], by simp [RetryResult.attempts]; omega,
          Or.inr (by simp [RetryResult.attempts]; omega), by simp [RetryResult.successStatusOk]⟩
    · dsimp only
      by_cases hcode : code = 200 ∨ code = 206
      · rw [if_pos hcode]
        refine ⟨by simp [RetryResult.attempts], by simp [RetryResult.attempts]; omega,
          Or.inl (by simp [RetryResult.isSuccess]), ?_⟩
        simp only [RetryResult.successStatusOk]
        rcases hcode with h | h <;> simp [h]
      · rw [if_neg hcode]
        by_cases hnext : retries + 1 ≤ maxRetries
        · rw [if_pos hnext]
          have h := ih (retries + 1) (by omega) hnext
          exact ⟨by omega, h.2.1, h.2.2.1, h.2.2.2⟩
        · rw [if_neg hnext]
          refine ⟨by simp [RetryResult.attempts], by simp [RetryResult.attempts]; omega,
            Or.inr (by simp [RetryResult.attempts]; omega), by simp [RetryResult.successStatusOk]⟩

/-- Claim C9: for every outcome sequence the retry loop terminates
(`retryLoop` is a total function) after at most
`MaxRetryPerDownloadBody() + 1` HTTP attempts, and it exits only by
obtaining a 200/206 response or by the counter exceeding the retry
budget. -/
theorem retry_loop_bounded_and_terminates (outcomes : Nat → DoOutcome)
    (maxRetries : Nat) :
    1 ≤ (retryLoop outcomes maxRetries 0).attempts ∧
    (retryLoop outcomes maxRetries 0).attempts ≤ maxRetries + 1 ∧
    ((retryLoop outcomes maxRetries 0).isSuccess = true ∨
      (retryLoop outcomes maxRetries 0).attempts = maxRetries + 1) ∧
    (retryLoop outcomes maxRetries 0).successStatusOk = true := by
  have h := retryLoop_props outcomes maxRetries maxRetries 0 (by omega) (by omega)
  exact ⟨h.1, h.2.1, h.2.2.1, h.2.2.2⟩

end AzCopyHttp
